import Mathlib

/-!
Verification of the via-stitching / via-fencing geometry and
candidate-filtering engine (KiCad plugin, Python source).

The embedding translates the engine's pure computational core:

* `stitching_utils.py` — ray-casting containment (`is_point_inside_segments`,
  `is_point_inside_polygon_with_holes`), point/segment distance
  (`point_segment_distance`), point/arc distance (`point_arc_distance`),
  polygon boundary distance (`point_polygon_distance`);
* `via_stitch_action.py::perform_stitching` — parameter validation, staggered
  grid generation with optional jitter, containment + edge-clearance filter,
  and the greedy collision resolver (self-spacing then obstacle clearance);
* `via_fence_action.py::perform_fencing` — parameter validation, the
  differential-pair outward filter, and the same greedy resolver.

Modelling conventions:

* Coordinates are exact rationals (the host uses integer nanometres; the
  Python arithmetic on them is modelled exactly, without float rounding).
* Euclidean lengths appear in the source only as `sqrt(s) < t` comparisons;
  these are embedded as the equivalent rational predicate
  `distLt s t := 0 < t ∧ s < t^2` (bridging lemma `distLt_iff_sqrt_lt`).
* Angles are measured in units of π radians, so kipy's
  `normalize_angle_radians` (normalization into `[0, 2π)`) becomes
  normalization into `[0, 2)`; the order structure the code relies on is
  preserved exactly by this rescaling.  The transcendental primitive `atan2`
  (kipy `Vector2.angle`) is abstracted as an oracle `ang : Pt → Pt → ℚ`
  giving the angle of `p - c` in π-units.
* `int()` casts are modelled by `pyInt` (truncation toward zero).
* The ambient random source (`random.uniform`) is modelled as an explicit
  stream `rng : ℕ → ℚ` of the values returned by successive calls.
* Host-API lookups (netclass sizing, board queries, commits) are outside the
  engine and are not modelled; runs are modelled with manual sizing, the
  whole-board path (`stitch_selection_only = False`, `stitch_layers_only =
  False`) and `debug_mode = False`, the defaults of the CLI entry points.
-/

namespace ViaStitching

/-- A 2D point with exact rational coordinates (kipy `Vector2`, integer nm). -/
abbrev Pt := ℚ × ℚ

/-- Squared Euclidean distance between two points: the square of
`(p - q).length()`. -/
def sqDist (p q : Pt) : ℚ := (p.1 - q.1) ^ 2 + (p.2 - q.2) ^ 2

/-- Exact embedding of the float comparison `sqrt s < t` (where `s` is a
squared length, hence nonnegative): it holds iff `t` is positive and
`s < t^2`. -/
def distLt (s t : ℚ) : Prop := 0 < t ∧ s < t ^ 2

instance (s t : ℚ) : Decidable (distLt s t) :=
  inferInstanceAs (Decidable (0 < t ∧ s < t ^ 2))

/-- The predicate `distLt` is exactly the comparison `sqrt s < t` performed by the source
on real numbers. -/
theorem distLt_iff_sqrt_lt (s t : ℚ) (hs : 0 ≤ s) :
    distLt s t ↔ Real.sqrt (s : ℝ) < (t : ℝ) := by
  constructor
  · rintro ⟨ht, hlt⟩
    have ht' : (0 : ℝ) < t := by exact_mod_cast ht
    rw [show ((t : ℝ)) = Real.sqrt (t ^ 2) by
      rw [Real.sqrt_sq (le_of_lt ht')]]
    apply Real.sqrt_lt_sqrt (by exact_mod_cast hs)
    exact_mod_cast hlt
  · intro h
    have hs' : (0 : ℝ) ≤ Real.sqrt (s : ℝ) := Real.sqrt_nonneg _
    have ht' : (0 : ℝ) < t := lt_of_le_of_lt hs' h
    refine ⟨by exact_mod_cast ht', ?_⟩
    have := (Real.sqrt_lt' ht').mp h
    exact_mod_cast this

/-- Nonnegativity: `0 ≤ sqDist p q` always. -/
theorem sqDist_nonneg (p q : Pt) : 0 ≤ sqDist p q :=
  add_nonneg (sq_nonneg _) (sq_nonneg _)

/-- Symmetry of `sqDist`. -/
theorem sqDist_comm (p q : Pt) : sqDist p q = sqDist q p := by
  unfold sqDist; ring

/-- Python's `int()` applied to an exact rational: truncation toward zero. -/
def pyInt (q : ℚ) : ℤ := if q < 0 then ⌈q⌉ else ⌊q⌋

/-- One iteration of the ray-casting loop of
`stitching_utils.is_point_inside_segments`: whether the segment
`(start, end)` contributes a crossing for the horizontal ray from `point`.
Horizontal segments (`start.y == end.y`) are skipped, then the half-open
tie rule `min(start.y, end.y) < point.y <= max(start.y, end.y)` gates the
crossing test `point.x < (end.x - start.x) * (point.y - start.y) /
(end.y - start.y) + start.x`. -/
def crossesRay (point : Pt) (s : Pt × Pt) : Bool :=
  if s.1.2 = s.2.2 then false
  else if min s.1.2 s.2.2 < point.2 ∧ point.2 ≤ max s.1.2 s.2.2 then
    decide (point.1 < (s.2.1 - s.1.1) * (point.2 - s.1.2) / (s.2.2 - s.1.2) + s.1.1)
  else false

/-- Embedding of `stitching_utils.is_point_inside_segments`: ray-casting parity test.
The source counts crossings in a loop; the count is the number of segments
satisfying `crossesRay`. -/
def is_point_inside_segments (point : Pt) (segments : List (Pt × Pt)) : Bool :=
  (segments.countP (crossesRay point)) % 2 == 1

/-- A polygon with holes, at the level the containment and distance queries
operate on: the outline and each hole already tessellated into segment lists
(the output of `get_polygon_segments`). -/
structure PolygonWithHoles where
  outline : List (Pt × Pt)
  holes : List (List (Pt × Pt))

/-- Embedding of `stitching_utils.is_point_inside_polygon_with_holes`: inside the outline
and inside none of the holes. -/
def is_point_inside_polygon_with_holes (point : Pt) (poly : PolygonWithHoles) : Bool :=
  is_point_inside_segments point poly.outline &&
    poly.holes.all (fun hole => !(is_point_inside_segments point hole))

/-- Variant of `crossesRay` in which the division by `end.y - start.y` is
checked: it returns `none` if a division by zero would be performed at the
point where the source divides, and `some` of the contribution otherwise. -/
def crossesRayChecked (point : Pt) (s : Pt × Pt) : Option Bool :=
  if s.1.2 = s.2.2 then some false
  else if min s.1.2 s.2.2 < point.2 ∧ point.2 ≤ max s.1.2 s.2.2 then
    if s.2.2 - s.1.2 = 0 then none
    else some (decide (point.1 < (s.2.1 - s.1.1) * (point.2 - s.1.2) / (s.2.2 - s.1.2) + s.1.1))
  else some false

/-- Checked-division variant of `is_point_inside_segments`: propagates `none`
if any segment's crossing test would divide by zero. -/
def insideSegmentsChecked (point : Pt) (segments : List (Pt × Pt)) : Option Bool :=
  (segments.mapM (crossesRayChecked point)).map (fun bs => (bs.countP id) % 2 == 1)

/-- Squared form of `stitching_utils.point_segment_distance`: project, clamp
the parameter to `[0, 1]`, and return the squared distance to the clamped
projection; a degenerate segment (`l2 == 0`) yields the squared distance
to `a`. -/
def sqPointSegDist (p a b : Pt) : ℚ :=
  let ab : Pt := (b.1 - a.1, b.2 - a.2)
  let ap : Pt := (p.1 - a.1, p.2 - a.2)
  let l2 := ab.1 ^ 2 + ab.2 ^ 2
  if l2 = 0 then ap.1 ^ 2 + ap.2 ^ 2
  else
    let t := max 0 (min 1 ((ap.1 * ab.1 + ap.2 * ab.2) / l2))
    sqDist p (a.1 + ab.1 * t, a.2 + ab.2 * t)

/-- Embedding of the edge-clearance test of `perform_stitching`
(`point_polygon_distance(pos, poly) >= t`): since `point_polygon_distance`
is the minimum over all outline and hole segments (`inf` when there are
none), the test holds iff no segment is strictly closer than `t`. -/
def edgeClearanceOk (pos : Pt) (poly : PolygonWithHoles) (t : ℚ) : Bool :=
  (poly.outline ++ poly.holes.flatten).all
    (fun s => !(decide (distLt (sqPointSegDist pos s.1 s.2) t)))

/-- Embedding of kipy's `normalize_angle_radians` (normalization into
`[0, 2π)`), with angles measured in units of π radians so that the
normalization window becomes `[0, 2)`. -/
def normAngle (x : ℚ) : ℚ := x - 2 * ⌊x / 2⌋

/-- The `delta_angle` computed by `point_arc_distance`:
`normalize(normalize(p_angle) - normalize(start_angle))`, where both input
angles are the raw `atan2` results (the source normalizes each before
subtracting, then normalizes the difference). -/
def arcDelta (startA pA : ℚ) : ℚ := normAngle (normAngle pA - normAngle startA)

/-- The on-arc classification test of `point_arc_distance`:
`0 <= delta_angle <= arc_total_angle`. -/
def arcOnArc (startA sweep pA : ℚ) : Bool :=
  decide (0 ≤ arcDelta startA pA ∧ arcDelta startA pA ≤ sweep)

/-- The value returned by `stitching_utils.point_arc_distance` once the
arc's center is defined, expressed over the point's polar measurements:
`pA` is the raw angle of `p - center`, `distToCenter` the distance from `p`
to the center, `dStart`/`dEnd` the distances from `p` to the arc endpoints.
If the normalized `delta_angle` lies in `[0, sweep]` the radial distance
`|distToCenter - radius|` is returned, otherwise the minimum endpoint
distance. -/
def point_arc_distance_val (radius startA sweep pA distToCenter dStart dEnd : ℚ) : ℚ :=
  if 0 ≤ arcDelta startA pA ∧ arcDelta startA pA ≤ sweep then |distToCenter - radius|
  else min dStart dEnd

/-- Exact embedding of the float comparison `|sqrt s - r| < t` (where `s` is
a squared length): both one-sided comparisons rendered rationally. -/
def absSqrtSubLt (s r t : ℚ) : Prop :=
  distLt s (r + t) ∧ (r - t < 0 ∨ (r - t) ^ 2 < s)

instance (s r t : ℚ) : Decidable (absSqrtSubLt s r t) :=
  inferInstanceAs (Decidable (_ ∧ (_ ∨ _)))

/-- The predicate `absSqrtSubLt` is exactly `|sqrt s - r| < t` on real numbers. -/
theorem absSqrtSubLt_iff (s r t : ℚ) (hs : 0 ≤ s) :
    absSqrtSubLt s r t ↔ |Real.sqrt (s : ℝ) - (r : ℝ)| < (t : ℝ) := by
  rw [abs_sub_lt_iff]
  constructor
  · rintro ⟨h₁, h₂⟩
    have hlt : Real.sqrt (s : ℝ) < ((r : ℝ) + t) := by
      have := (distLt_iff_sqrt_lt s (r + t) hs).mp h₁
      push_cast at this; linarith
    constructor
    · linarith
    · rcases h₂ with h | h
      · have : (r : ℝ) - t < 0 := by exact_mod_cast h
        have := Real.sqrt_nonneg (s : ℝ)
        linarith
      · have h' : ((r : ℝ) - t) ^ 2 < (s : ℝ) := by exact_mod_cast h
        by_cases hrt : (r : ℝ) - t < 0
        · have := Real.sqrt_nonneg (s : ℝ)
          linarith
        · push_neg at hrt
          have := Real.lt_sqrt (y := (s : ℝ)) hrt
          have hlt2 : (r : ℝ) - t < Real.sqrt (s : ℝ) := this.mpr h'
          linarith
  · rintro ⟨h₁, h₂⟩
    constructor
    · rw [distLt_iff_sqrt_lt s (r + t) hs]
      push_cast; linarith
    · by_cases hrt : r - t < 0
      · exact Or.inl hrt
      · push_neg at hrt
        refine Or.inr ?_
        have hrt' : (0 : ℝ) ≤ (r : ℝ) - t := by exact_mod_cast hrt
        have h2' : (r : ℝ) - t < Real.sqrt (s : ℝ) := by linarith
        have := (Real.lt_sqrt hrt').mp h2'
        exact_mod_cast this

/-- An obstacle record as collected by `perform_stitching` /
`perform_fencing`: the kind-tagged geometric payload plus the optional net
name (`obs['net']`, `None` modelled as `none`).  Pad half-width is the
caller-resolved effective radius (`max(size.x, size.y) / 2`). -/
inductive Obstacle where
  | via (position : Pt) (diameter : ℚ) (net : Option String)
  | pad (position : Pt) (halfWidth : ℚ) (net : Option String)
  | track (a b : Pt) (width : ℚ) (net : Option String)
  | arcTrack (center astart aend : Pt) (radius sweep width : ℚ) (net : Option String)
deriving DecidableEq

/-- The net name attached to an obstacle record. -/
def Obstacle.netName : Obstacle → Option String
  | .via _ _ n => n
  | .pad _ _ n => n
  | .track _ _ _ n => n
  | .arcTrack _ _ _ _ _ _ n => n

/-- The net-exemption test `target_net and obs['net'] and obs['net'].name ==
target_net.name`: exemption requires both a target net and an obstacle net,
and equal names.  An absent net on either side never exempts. -/
def exempt (targetNet obsNet : Option String) : Bool :=
  match targetNet, obsNet with
  | some t, some n => n == t
  | _, _ => false

/-- The per-kind clearance comparison `dist < via_radius + obs_clearance +
clearance` of the obstacle loop: center distance for vias and pads
(half-width `diameter / 2` resp. the resolved pad half-width), point-segment
distance for tracks (half-width `width / 2`), point-arc distance for arc
tracks (half-width `width / 2`).  `ang c p` is the oracle for the `atan2`
angle of `p - c` in π-units. -/
def obstacleViolates (ang : Pt → Pt → ℚ) (pos : Pt) (viaRadius clearance : ℚ) :
    Obstacle → Bool
  | .via c d _ => decide (distLt (sqDist pos c) (viaRadius + d / 2 + clearance))
  | .pad c hw _ => decide (distLt (sqDist pos c) (viaRadius + hw + clearance))
  | .track a b w _ => decide (distLt (sqPointSegDist pos a b) (viaRadius + w / 2 + clearance))
  | .arcTrack c s e r sweep w _ =>
    let t := viaRadius + w / 2 + clearance
    if 0 ≤ arcDelta (ang c s) (ang c pos) ∧ arcDelta (ang c s) (ang c pos) ≤ sweep then
      decide (absSqrtSubLt (sqDist pos c) r t)
    else
      decide (distLt (sqDist pos s) t ∨ distLt (sqDist pos e) t)

/-- The obstacle loop of `perform_stitching` / `perform_fencing`: iterate
the obstacle list in index order, skip net-exempt obstacles, and stop at the
first violating obstacle (`error_reason = ...; break`), returning it;
`none` when no obstacle violates. -/
def clearance_scan (ang : Pt → Pt → ℚ) (pos : Pt) (viaRadius clearance : ℚ)
    (targetNet : Option String) : List Obstacle → Option Obstacle
  | [] => none
  | o :: rest =>
    if exempt targetNet o.netName then
      clearance_scan ang pos viaRadius clearance targetNet rest
    else if obstacleViolates ang pos viaRadius clearance o then some o
    else clearance_scan ang pos viaRadius clearance targetNet rest

/-- The self-spacing test of the resolver: some already-validated point is
within `spacing` of the candidate (`(pos - vp).length() < spacing_nm`). -/
def selfSpacingConflict (spacing : ℚ) (validated : List Pt) (pos : Pt) : Bool :=
  validated.any (fun vp => decide (distLt (sqDist pos vp) spacing))

/-- One candidate of the greedy resolver loop: reject on self-spacing
conflict with the already-validated points, otherwise reject on an obstacle
clearance violation, otherwise append to the validated list. -/
def resolveStep (spacing : ℚ) (viol : Pt → Bool) (validated : List Pt) (pos : Pt) :
    List Pt :=
  if selfSpacingConflict spacing validated pos then validated
  else if viol pos then validated
  else validated ++ [pos]

/-- The greedy collision resolver shared by `perform_stitching` and
`perform_fencing`: process candidates strictly in generator order, starting
from an empty validated list. -/
def resolveCandidates (spacing : ℚ) (viol : Pt → Bool) (cands : List Pt) : List Pt :=
  cands.foldl (resolveStep spacing viol) []

/-- An axis-aligned bounding box (kipy `Box2`): position of the min corner
and size. -/
structure Box where
  pos : Pt
  size : Pt
deriving DecidableEq

/-- Embedding of `Box2.center()`: `pos + size / 2`. -/
def Box.center (b : Box) : Pt := (b.pos.1 + b.size.1 / 2, b.pos.2 + b.size.2 / 2)

/-- Embedding of `Box2.merge`: the axis-aligned envelope of two boxes. -/
def Box.merge (a b : Box) : Box :=
  let lo : Pt := (min a.pos.1 b.pos.1, min a.pos.2 b.pos.2)
  let hi : Pt := (max (a.pos.1 + a.size.1) (b.pos.1 + b.size.1),
                  max (a.pos.2 + a.size.2) (b.pos.2 + b.size.2))
  ⟨lo, (hi.1 - lo.1, hi.2 - lo.2)⟩

/-- Embedding of `stitching_utils.get_enclosing_bbox`: each shape contributes its host
bounding box (possibly `None`, skipped); `None` when no box is available,
otherwise the merge of all boxes. -/
def get_enclosing_bbox (shapes : List (Option Box)) : Option Box :=
  match shapes.filterMap id with
  | [] => none
  | b :: rest => some (rest.foldl Box.merge b)

/-- The half row/column count of the staggered grid:
`int(extent / (2.0 * spacing)) if spacing > 0 else 0`. -/
def gridHalf (extent spacing : ℚ) : ℤ :=
  if 0 < spacing then pyInt (extent / (2 * spacing)) else 0

/-- The x offset applied to a row: `row_offset if i % 2 != 0 else 0`
(Python `%` on integers returns a nonnegative remainder, as does `Int.emod`
for a positive modulus). -/
def rowXOffset (rowOffset : ℚ) (i : ℤ) : ℚ := if i % 2 ≠ 0 then rowOffset else 0

/-- Python `range(lo, hi + 1)` over integers. -/
def intRange (lo hi : ℤ) : List ℤ :=
  (List.range (hi + 1 - lo).toNat).map (fun k : ℕ => lo + (k : ℤ))

/-- The raw staggered grid of `perform_stitching` (before jitter,
`int()` casts and area filtering): rows `i` and columns `j` from
`-half` to `half`, point `(center.x + j * spacing + row_x_offset,
center.y + i * spacing)`, with the x offset only on odd rows. -/
def rawGrid (center : Pt) (sizeX sizeY spacing rowOffset : ℚ) : List Pt :=
  (intRange (-(gridHalf sizeY spacing)) (gridHalf sizeY spacing)).flatMap (fun i : ℤ =>
    (intRange (-(gridHalf sizeX spacing)) (gridHalf sizeX spacing)).map (fun j : ℤ =>
      (center.1 + (j : ℚ) * spacing + rowXOffset rowOffset i,
       center.2 + (i : ℚ) * spacing)))

/-- Parameters of `perform_stitching` (manual sizing path), already
converted to nanometre units. -/
structure StitchConfig where
  viaSize : ℚ
  drillSize : ℚ
  spacing : ℚ
  clearance : ℚ
  edgeClearance : ℚ
  rowOffset : ℚ
  randomVariance : Bool
  targetNet : Option String
deriving DecidableEq

/-- The grid positions of `perform_stitching` after optional jitter and the
`int()` casts: the `k`-th raw grid point consumes the `2k`-th and
`(2k+1)`-th values of the ambient random stream when variance is enabled. -/
def stitchRawPositions (cfg : StitchConfig) (bbox : Box) (rng : ℕ → ℚ) : List Pt :=
  ((rawGrid bbox.center bbox.size.1 bbox.size.2 cfg.spacing cfg.rowOffset).enum.map
    (fun kp =>
      if cfg.randomVariance then (kp.2.1 + rng (2 * kp.1), kp.2.2 + rng (2 * kp.1 + 1))
      else kp.2)).map
    (fun p => ((pyInt p.1 : ℚ), (pyInt p.2 : ℚ)))

/-- The rectangle polygon `perform_stitching` builds from the enclosing
bounding box in the whole-board path (four corner nodes, closed). -/
def bboxRectPoly (b : Box) : PolygonWithHoles :=
  let p1 : Pt := b.pos
  let p2 : Pt := (b.pos.1 + b.size.1, b.pos.2)
  let p3 : Pt := (b.pos.1 + b.size.1, b.pos.2 + b.size.2)
  let p4 : Pt := (b.pos.1, b.pos.2 + b.size.2)
  ⟨[(p1, p2), (p2, p3), (p3, p4), (p4, p1)], []⟩

/-- The containment / edge-clearance filter of `perform_stitching`: keep a
position iff it is inside the stitch-area polygon and at least
`via_radius + edge_clearance` from its boundary. -/
def candidateFilter (poly : PolygonWithHoles) (t : ℚ) (positions : List Pt) : List Pt :=
  positions.filter
    (fun pos => is_point_inside_polygon_with_holes pos poly && edgeClearanceOk pos poly t)

/-- The candidate positions of a whole-board stitching run. -/
def stitchCandidates (cfg : StitchConfig) (bbox : Box) (rng : ℕ → ℚ) : List Pt :=
  candidateFilter (bboxRectPoly bbox) (cfg.viaSize / 2 + cfg.edgeClearance)
    (stitchRawPositions cfg bbox rng)

/-- Embedding of `via_stitch_action.perform_stitching`, whole-board path, manual sizing,
`debug_mode = False`: validate spacing, collect the outline, build the
bounding box and its rectangle stitch area, generate and filter grid
candidates (raising when none survive), then run the greedy resolver over
the obstacle list.  The result is the ordered accepted point list. -/
def perform_stitching (cfg : StitchConfig) (outlineShapes : List (Option Box))
    (obstacles : List Obstacle) (ang : Pt → Pt → ℚ) (rng : ℕ → ℚ) :
    Except String (List Pt) :=
  if cfg.spacing ≤ 0 then .error "Spacing must be a positive value."
  else if outlineShapes = [] then .error "No valid board outline found."
  else
    match get_enclosing_bbox outlineShapes with
    | none => .error "Could not determine board bounding box."
    | some bbox =>
      let candidates := stitchCandidates cfg bbox rng
      if candidates = [] then
        .error "No valid positions for vias found within the specified area and clearance."
      else
        .ok (resolveCandidates cfg.spacing
          (fun pos =>
            (clearance_scan ang pos (cfg.viaSize / 2) cfg.clearance cfg.targetNet
              obstacles).isSome)
          candidates)

/-- A selected reference curve of `perform_fencing`: its reference position
(`item.position`) and the ordered candidate points `_generate_candidates`
produces for it (the offset-curve sampling itself involves the
transcendental length/direction primitives and is carried as data). -/
structure FenceItem where
  position : Pt
  genPoints : List Pt
deriving DecidableEq

/-- Parameters of `perform_fencing` (manual sizing path), in nanometres. -/
structure FenceConfig where
  numRows : ℕ
  distance : ℚ
  spacing : ℚ
  rowOffset : ℚ
  clearance : ℚ
  viaSize : ℚ
  drillSize : ℚ
  isDiffPair : Bool
  targetNet : Option String
deriving DecidableEq

/-- The pairwise midpoints of the differential-pair filter: formed only when
the two generated point sequences have equal length, otherwise the empty
list. -/
def midpoints (points1 points2 : List Pt) : List Pt :=
  if points1.length = points2.length then
    (points1.zip points2).map (fun q => ((q.1.1 + q.2.1) / 2, (q.1.2 + q.2.2) / 2))
  else []

/-- The `is_outer` test of the differential-pair loop: a candidate survives
iff it is not strictly closer to any midpoint than either item's reference
position is. -/
def is_outer (i1pos i2pos p : Pt) (mids : List Pt) : Bool :=
  mids.all (fun mid =>
    !(decide (sqDist p mid < sqDist i1pos mid) || decide (sqDist p mid < sqDist i2pos mid)))

/-- The differential-pair outward filter of `perform_fencing` (lines forming
`candidate_points` in diff-pair mode): all generated points of both curves,
filtered by `is_outer` against the shared midpoint list. -/
def diffPairFilter (i1pos i2pos : Pt) (points1 points2 : List Pt) : List Pt :=
  (points1 ++ points2).filter
    (fun p => is_outer i1pos i2pos p (midpoints points1 points2))

/-- Embedding of `via_fence_action.perform_fencing`, manual sizing, `debug_mode = False`:
validate spacing; in differential-pair mode require exactly two selected
items and apply the outward filter to their generated points, otherwise
concatenate all items' generated points; then run the greedy resolver over
the obstacle list. -/
def perform_fencing (cfg : FenceConfig) (selectedItems : List FenceItem)
    (obstacles : List Obstacle) (ang : Pt → Pt → ℚ) : Except String (List Pt) :=
  if cfg.spacing ≤ 0 then .error "Spacing must be a positive value."
  else
    let viol : Pt → Bool := fun pos =>
      (clearance_scan ang pos (cfg.viaSize / 2) cfg.clearance cfg.targetNet obstacles).isSome
    if cfg.isDiffPair then
      match selectedItems with
      | [item1, item2] =>
        .ok (resolveCandidates cfg.spacing viol
          (diffPairFilter item1.position item2.position item1.genPoints item2.genPoints))
      | _ => .error "Differential pair fencing requires exactly two tracks to be selected."
    else
      .ok (resolveCandidates cfg.spacing viol (selectedItems.flatMap FenceItem.genPoints))

/-- Each segment's checked crossing test succeeds and agrees with the
unchecked one: the only division is guarded by the horizontal-segment skip. -/
theorem crossesRayChecked_eq (point : Pt) (s : Pt × Pt) :
    crossesRayChecked point s = some (crossesRay point s) := by
  unfold crossesRayChecked crossesRay
  split_ifs with h1 h2 h3
  · rfl
  · exact absurd (sub_eq_zero.mp h3).symm h1
  · rfl
  · rfl

/-- C10. The ray-casting containment test is total for every query point and
every segment list, including lists containing horizontal or zero-length
segments: the checked-division variant `insideSegmentsChecked` (which
returns `none` exactly when the division by `end.y - start.y` would be
performed on a zero denominator) always returns `some` of the Boolean
computed by `is_point_inside_segments` — the division is reached only after
segments with `start.y == end.y` have been skipped. -/
theorem ray_casting_total_spec (point : Pt) (segments : List (Pt × Pt)) :
    insideSegmentsChecked point segments = some (is_point_inside_segments point segments) := by
  have hmap : segments.mapM (crossesRayChecked point) =
      some (segments.map (crossesRay point)) := by
    induction segments with
    | nil => rfl
    | cons s rest ih =>
      rw [List.mapM_cons, crossesRayChecked_eq, ih]
      rfl
  unfold insideSegmentsChecked is_point_inside_segments
  rw [hmap, Option.map_some']
  congr 1
  rw [List.countP_map]
  rfl

/-- C3. Region containment is decided by the ray-casting parity test:
horizontal segments contribute zero crossings; a non-horizontal segment is
counted only when `min(start.y, end.y) < point.y <= max(start.y, end.y)`
(half-open tie rule); and a point is inside a `PolygonWithHoles` iff it is
inside the outline and inside none of the holes. -/
theorem ray_casting_spec :
    (∀ (point : Pt) (s : Pt × Pt), s.1.2 = s.2.2 → crossesRay point s = false) ∧
    (∀ (point : Pt) (s : Pt × Pt), crossesRay point s = true →
      min s.1.2 s.2.2 < point.2 ∧ point.2 ≤ max s.1.2 s.2.2) ∧
    (∀ (point : Pt) (poly : PolygonWithHoles),
      is_point_inside_polygon_with_holes point poly = true ↔
        is_point_inside_segments point poly.outline = true ∧
        ∀ hole ∈ poly.holes, is_point_inside_segments point hole = false) := by
  refine ⟨?_, ?_, ?_⟩
  · intro point s h
    simp [crossesRay, h]
  · intro point s h
    unfold crossesRay at h
    split_ifs at h with h1 h2
    · exact h2
  · intro point poly
    simp [is_point_inside_polygon_with_holes, List.all_eq_true]

/-- Closed instance of `ray_casting_spec`: a horizontal segment never
crosses, and a crossing segment satisfies the half-open band condition. -/
theorem ray_casting_spec_witness :
    crossesRay ((0 : ℚ), (0 : ℚ)) (((0 : ℚ), (0 : ℚ)), ((1 : ℚ), (0 : ℚ))) = false ∧
    (min ((-1 : ℚ)) 1 < (0 : ℚ) ∧ (0 : ℚ) ≤ max (-1 : ℚ) 1) :=
  ⟨ray_casting_spec.1 _ _ rfl,
    ray_casting_spec.2.1 ((0 : ℚ), (0 : ℚ)) (((1 : ℚ), (-1 : ℚ)), ((1 : ℚ), (1 : ℚ)))
      (by with_unfolding_all decide)⟩

/-- The self-spacing test holds iff some already-validated point is strictly
within `spacing` of the candidate. -/
theorem selfSpacingConflict_iff (spacing : ℚ) (validated : List Pt) (pos : Pt) :
    selfSpacingConflict spacing validated pos = true ↔
      ∃ vp ∈ validated, distLt (sqDist pos vp) spacing := by
  simp [selfSpacingConflict]

/-- Invariant preservation of the resolver fold: mutual spacing of the
validated list is preserved by every step. -/
theorem foldl_resolveStep_pairwise (spacing : ℚ) (viol : Pt → Bool) :
    ∀ (cands acc : List Pt),
      acc.Pairwise (fun p q => ¬ distLt (sqDist p q) spacing) →
      (cands.foldl (resolveStep spacing viol) acc).Pairwise
        (fun p q => ¬ distLt (sqDist p q) spacing) := by
  intro cands
  induction cands with
  | nil => intro acc hacc; simpa using hacc
  | cons c rest ih =>
    intro acc hacc
    rw [List.foldl_cons]
    apply ih
    unfold resolveStep
    split_ifs with h1 h2
    · exact hacc
    · exact hacc
    · rw [List.pairwise_append]
      refine ⟨hacc, by simp, ?_⟩
      intro a ha b hb
      rw [List.mem_singleton] at hb
      subst hb
      rw [selfSpacingConflict_iff] at h1
      push_neg at h1
      rw [sqDist_comm]
      exact h1 a ha

/-- The resolver fold only appends: the result is the accumulator followed
by a subsequence of the candidate list. -/
theorem foldl_resolveStep_sublist (spacing : ℚ) (viol : Pt → Bool) :
    ∀ (cands acc : List Pt), ∃ tail,
      cands.foldl (resolveStep spacing viol) acc = acc ++ tail ∧ tail.Sublist cands := by
  intro cands
  induction cands with
  | nil => intro acc; exact ⟨[], by simp, List.Sublist.refl _⟩
  | cons c rest ih =>
    intro acc
    rw [List.foldl_cons]
    by_cases h1 : selfSpacingConflict spacing acc c = true
    · obtain ⟨tail, heq, hsub⟩ := ih acc
      refine ⟨tail, ?_, hsub.cons c⟩
      rw [show resolveStep spacing viol acc c = acc by simp [resolveStep, h1]]
      exact heq
    · by_cases h2 : viol c = true
      · obtain ⟨tail, heq, hsub⟩ := ih acc
        refine ⟨tail, ?_, hsub.cons c⟩
        rw [show resolveStep spacing viol acc c = acc by simp [resolveStep, h1, h2]]
        exact heq
      · obtain ⟨tail, heq, hsub⟩ := ih (acc ++ [c])
        refine ⟨c :: tail, ?_, hsub.cons₂ c⟩
        rw [show resolveStep spacing viol acc c = acc ++ [c] by simp [resolveStep, h1, h2]]
        rw [heq]
        simp

/-- C1. In every placement run (stitching or fencing) candidates are
processed strictly in generator order (the accepted list is an
order-preserving subsequence of the candidate list); a candidate is rejected
by the self-spacing test exactly when some already-accepted point is at
Euclidean distance strictly less than `spacing` from it; and consequently
every two distinct points of the final accepted set of a successful
`perform_stitching` or `perform_fencing` run are at distance at least
`spacing` from each other (`¬ distLt (sqDist p q) spacing` is exactly
`dist p q ≥ spacing`, by `distLt_iff_sqrt_lt`). -/
theorem resolver_spacing_spec (spacing : ℚ) (viol : Pt → Bool) (cands : List Pt) :
    (resolveCandidates spacing viol cands).Sublist cands ∧
    (resolveCandidates spacing viol cands).Pairwise
      (fun p q => ¬ distLt (sqDist p q) spacing) ∧
    (∀ validated pos, selfSpacingConflict spacing validated pos = true ↔
      ∃ vp ∈ validated, distLt (sqDist pos vp) spacing) ∧
    (∀ validated pos, selfSpacingConflict spacing validated pos = true →
      resolveStep spacing viol validated pos = validated) ∧
    (∀ (cfg : StitchConfig) shapes obstacles ang rng pts,
      perform_stitching cfg shapes obstacles ang rng = Except.ok pts →
      pts.Pairwise (fun p q => ¬ distLt (sqDist p q) cfg.spacing)) ∧
    (∀ (fcfg : FenceConfig) items obstacles ang pts,
      perform_fencing fcfg items obstacles ang = Except.ok pts →
      pts.Pairwise (fun p q => ¬ distLt (sqDist p q) fcfg.spacing)) := by
  refine ⟨?_, ?_, selfSpacingConflict_iff spacing, ?_, ?_, ?_⟩
  · obtain ⟨tail, heq, hsub⟩ := foldl_resolveStep_sublist spacing viol cands []
    rw [resolveCandidates, heq]
    simpa using hsub
  · exact foldl_resolveStep_pairwise spacing viol cands [] (by simp)
  · intro validated pos h
    unfold resolveStep
    rw [if_pos h]
  · intro cfg shapes obstacles ang rng pts h
    unfold perform_stitching at h
    split_ifs at h
    rcases hb : get_enclosing_bbox shapes with _ | bbox <;> rw [hb] at h <;> dsimp only at h
    · cases h
    · split_ifs at h with hc
      injection h with h
      subst h
      exact foldl_resolveStep_pairwise cfg.spacing _ _ [] (by simp)
  · intro fcfg items obstacles ang pts h
    unfold perform_fencing at h
    split_ifs at h with h1 h2
    · rcases items with _ | ⟨a, _ | ⟨b, _ | ⟨c, rest⟩⟩⟩ <;> dsimp only at h
      · cases h
      · cases h
      · injection h with h
        subst h
        exact foldl_resolveStep_pairwise fcfg.spacing _ _ [] (by simp)
      · cases h
    · dsimp only at h
      injection h with h
      subst h
      exact foldl_resolveStep_pairwise fcfg.spacing _ _ [] (by simp)

/-- Closed instance of `resolver_spacing_spec`: a candidate within `spacing`
of an accepted point is rejected, and a concrete fencing run's accepted
points are mutually spaced. -/
theorem resolver_spacing_spec_witness :
    resolveStep 2 (fun _ => false) [((0 : ℚ), (0 : ℚ))] ((1 : ℚ), (0 : ℚ)) =
      [((0 : ℚ), (0 : ℚ))] ∧
    ([] : List Pt).Pairwise (fun p q =>
      ¬ distLt (sqDist p q) (⟨1, 1, 1, 0, 0, 1, 1, false, none⟩ : FenceConfig).spacing) :=
  ⟨(resolver_spacing_spec 2 (fun _ => false) []).2.2.2.1 [((0 : ℚ), (0 : ℚ))]
      ((1 : ℚ), (0 : ℚ)) (by with_unfolding_all decide),
    (resolver_spacing_spec 1 (fun _ => false) []).2.2.2.2.2
      ⟨1, 1, 1, 0, 0, 1, 1, false, none⟩ [] [] (fun _ _ => 0) []
      (by with_unfolding_all rfl)⟩

/-- The obstacle loop is `List.find?` of the non-exempt-and-violating
predicate: it scans in index order and stops at the first hit. -/
theorem clearance_scan_eq_find (ang : Pt → Pt → ℚ) (pos : Pt) (vr cl : ℚ)
    (tn : Option String) (l : List Obstacle) :
    clearance_scan ang pos vr cl tn l =
      l.find? (fun o => !exempt tn o.netName && obstacleViolates ang pos vr cl o) := by
  induction l with
  | nil => rfl
  | cons o rest ih =>
    rw [clearance_scan, List.find?_cons]
    by_cases he : exempt tn o.netName
    · rw [if_pos he]
      simp only [he, Bool.not_true, Bool.false_and]
      exact ih
    · rw [if_neg he]
      by_cases hv : obstacleViolates ang pos vr cl o
      · simp only [he, hv, Bool.not_false, Bool.true_and, if_pos]
      · simp only [he, hv, Bool.not_false, Bool.true_and, if_neg, Bool.false_eq_true,
          if_false]
        exact ih

/-- C2. The obstacle clearance test reports a violation iff some non-exempt
obstacle is strictly closer than `via_radius + obstacle_half_width +
clearance` under its kind's primitive distance (center distance for vias and
pads, point-segment distance for tracks, point-arc distance for arc tracks);
the scan is `List.find?` in index order (first violating obstacle
short-circuits); an obstacle is exempt only when both it and the target
carry a net and the names are equal — an obstacle with no net is never
exempt, and with no target net nothing is exempt. -/
theorem clearance_scan_spec (ang : Pt → Pt → ℚ) (pos : Pt) (vr cl : ℚ)
    (tn : Option String) (l : List Obstacle) :
    (clearance_scan ang pos vr cl tn l =
      l.find? (fun o => !exempt tn o.netName && obstacleViolates ang pos vr cl o)) ∧
    ((clearance_scan ang pos vr cl tn l).isSome ↔
      ∃ o ∈ l, exempt tn o.netName = false ∧ obstacleViolates ang pos vr cl o = true) ∧
    (∀ o, clearance_scan ang pos vr cl tn l = some o →
      exempt tn o.netName = false ∧ obstacleViolates ang pos vr cl o = true) ∧
    (∀ onet, exempt none onet = false) ∧
    (exempt tn none = false) ∧
    (∀ t n, exempt (some t) (some n) = true ↔ n = t) ∧
    (∀ c d n, obstacleViolates ang pos vr cl (.via c d n) =
      decide (distLt (sqDist pos c) (vr + d / 2 + cl))) ∧
    (∀ a b w n, obstacleViolates ang pos vr cl (.track a b w n) =
      decide (distLt (sqPointSegDist pos a b) (vr + w / 2 + cl))) := by
  refine ⟨clearance_scan_eq_find ang pos vr cl tn l, ?_, ?_, ?_, ?_, ?_, fun _ _ _ => rfl,
    fun _ _ _ _ => rfl⟩
  · rw [clearance_scan_eq_find]
    rw [List.find?_isSome]
    constructor
    · rintro ⟨o, ho, hp⟩
      rw [Bool.and_eq_true, Bool.not_eq_true'] at hp
      exact ⟨o, ho, hp.1, hp.2⟩
    · rintro ⟨o, ho, h1, h2⟩
      exact ⟨o, ho, by rw [Bool.and_eq_true, Bool.not_eq_true']; exact ⟨h1, h2⟩⟩
  · intro o h
    rw [clearance_scan_eq_find] at h
    have := List.find?_some h
    rw [Bool.and_eq_true, Bool.not_eq_true'] at this
    exact this
  · intro onet; cases onet <;> rfl
  · cases tn <;> rfl
  · intro t n; simp [exempt]

/-- Closed instance of `clearance_scan_spec`: a concrete scan returning its
first violating obstacle, which is non-exempt and violating. -/
theorem clearance_scan_spec_witness :
    exempt none (Obstacle.via ((0 : ℚ), (0 : ℚ)) 2 none).netName = false ∧
    obstacleViolates (fun _ _ => 0) ((0 : ℚ), (0 : ℚ)) 1 0
      (Obstacle.via ((0 : ℚ), (0 : ℚ)) 2 none) = true :=
  (clearance_scan_spec (fun _ _ => 0) ((0 : ℚ), (0 : ℚ)) 1 0 none
      [Obstacle.via ((0 : ℚ), (0 : ℚ)) 2 none]).2.2.1
    (Obstacle.via ((0 : ℚ), (0 : ℚ)) 2 none) (by with_unfolding_all rfl)

/-- The function `normAngle` is nonnegative: the normalization really lands in the
window. -/
theorem normAngle_nonneg (x : ℚ) : 0 ≤ normAngle x := by
  unfold normAngle
  have h : ((⌊x / 2⌋ : ℤ) : ℚ) ≤ x / 2 := Int.floor_le (x / 2)
  linarith

/-- The function `normAngle` is strictly below `2` (i.e. below `2π`). -/
theorem normAngle_lt_two (x : ℚ) : normAngle x < 2 := by
  unfold normAngle
  have h : x / 2 < (⌊x / 2⌋ : ℤ) + 1 := Int.lt_floor_add_one (x / 2)
  push_cast at h
  linarith

/-- C4 (code evaluation at the failing input).  For a negative sweep the
on-arc window of `point_arc_distance` is empty: the normalized
`delta_angle` always lies in `[0, 2π)`, so `0 <= delta <= sweep` cannot
hold when `sweep < 0`.  Concretely, for the clockwise half-circle arc with
start angle `0` and sweep `-π` (here `-1` in π-units): the point at angle
`-π/2` — which lies on the arc — is classified off-arc, the point at angle
exactly `start` is classified off-arc, and every query at angle `-π/2`
receives the minimum endpoint distance instead of the radial distance
`|distToCenter - radius|`, contrary to the claim (and to the spec's
"shortest distance" reading) for both arc seam directions. -/
theorem arc_negative_sweep_eval :
    arcOnArc 0 (-1) (-(1 / 2)) = false ∧
    arcOnArc 0 (-1) 0 = false ∧
    (∀ startA pA : ℚ, 0 ≤ arcDelta startA pA ∧ arcDelta startA pA < 2) ∧
    (∀ radius distToCenter dStart dEnd : ℚ,
      point_arc_distance_val radius 0 (-1) (-(1 / 2)) distToCenter dStart dEnd =
        min dStart dEnd) := by
  refine ⟨by with_unfolding_all decide, by with_unfolding_all decide, ?_, ?_⟩
  · intro startA pA
    unfold arcDelta
    exact ⟨normAngle_nonneg _, normAngle_lt_two _⟩
  · intro radius distToCenter dStart dEnd
    unfold point_arc_distance_val
    rw [if_neg (by with_unfolding_all decide)]

/-- Membership in the integer loop range `range(lo, hi + 1)`. -/
theorem mem_intRange {lo hi x : ℤ} : x ∈ intRange lo hi ↔ lo ≤ x ∧ x ≤ hi := by
  unfold intRange
  constructor
  · intro h
    obtain ⟨k, hk, hkx⟩ := List.mem_map.mp h
    rw [List.mem_range] at hk
    omega
  · intro h
    refine List.mem_map.mpr ⟨(x - lo).toNat, ?_, ?_⟩
    · rw [List.mem_range]; omega
    · omega

/-- Membership in the raw staggered grid: exactly the points
`(center.x + j * spacing + row_x_offset(i), center.y + i * spacing)` for
row and column indices between `-half` and `half`. -/
theorem mem_rawGrid {center : Pt} {sx sy spacing off : ℚ} {p : Pt} :
    p ∈ rawGrid center sx sy spacing off ↔
      ∃ i j : ℤ, -(gridHalf sy spacing) ≤ i ∧ i ≤ gridHalf sy spacing ∧
        -(gridHalf sx spacing) ≤ j ∧ j ≤ gridHalf sx spacing ∧
        p = (center.1 + (j : ℚ) * spacing + rowXOffset off i,
             center.2 + (i : ℚ) * spacing) := by
  unfold rawGrid
  simp only [List.mem_flatMap, List.mem_map, mem_intRange]
  constructor
  · rintro ⟨i, ⟨hi1, hi2⟩, j, ⟨hj1, hj2⟩, rfl⟩
    exact ⟨i, j, hi1, hi2, hj1, hj2, rfl⟩
  · rintro ⟨i, j, hi1, hi2, hj1, hj2, rfl⟩
    exact ⟨i, ⟨hi1, hi2⟩, j, ⟨hj1, hj2⟩, rfl⟩

/-- C5 (corrected claim).  The staggered grid generator is centered on the
bounding-box center with row/column counts `floor(half-extent / spacing)`
on each side of the center; a row's x offset is applied exactly to the odd
rows; and with jitter disabled and a zero row offset the raw grid is
point-symmetric about the bounding-box center.  (With a nonzero row offset
the point symmetry fails — see the counterexample.) -/
theorem grid_generator_spec (b : Box) (spacing off : ℚ) (hs : 0 < spacing) :
    (0 ≤ b.size.1 → gridHalf b.size.1 spacing = ⌊b.size.1 / 2 / spacing⌋) ∧
    (0 ≤ b.size.2 → gridHalf b.size.2 spacing = ⌊b.size.2 / 2 / spacing⌋) ∧
    (∀ p : Pt, p ∈ rawGrid b.center b.size.1 b.size.2 spacing off ↔
      ∃ i j : ℤ, -(gridHalf b.size.2 spacing) ≤ i ∧ i ≤ gridHalf b.size.2 spacing ∧
        -(gridHalf b.size.1 spacing) ≤ j ∧ j ≤ gridHalf b.size.1 spacing ∧
        p = (b.center.1 + (j : ℚ) * spacing + rowXOffset off i,
             b.center.2 + (i : ℚ) * spacing)) ∧
    (∀ i : ℤ, i % 2 = 0 → rowXOffset off i = 0) ∧
    (∀ i : ℤ, i % 2 ≠ 0 → rowXOffset off i = off) ∧
    (off = 0 → ∀ p ∈ rawGrid b.center b.size.1 b.size.2 spacing off,
      (2 * b.center.1 - p.1, 2 * b.center.2 - p.2) ∈
        rawGrid b.center b.size.1 b.size.2 spacing off) := by
  have hhalf : ∀ e : ℚ, 0 ≤ e → gridHalf e spacing = ⌊e / 2 / spacing⌋ := by
    intro e he
    unfold gridHalf pyInt
    rw [if_pos hs, if_neg (not_lt.mpr (div_nonneg he (by positivity)))]
    rw [div_div]
  refine ⟨hhalf b.size.1, hhalf b.size.2, fun p => mem_rawGrid, ?_, ?_, ?_⟩
  · intro i hi; simp [rowXOffset, hi]
  · intro i hi; simp [rowXOffset, hi]
  · rintro rfl p hp
    rw [mem_rawGrid] at hp ⊢
    obtain ⟨i, j, hi1, hi2, hj1, hj2, rfl⟩ := hp
    refine ⟨-i, -j, by omega, by omega, by omega, by omega, ?_⟩
    have hz : ∀ k : ℤ, rowXOffset 0 k = 0 := by intro k; simp [rowXOffset]
    rw [hz, hz]
    rw [Prod.ext_iff]
    constructor <;> push_cast <;> ring

/-- Closed instance of `grid_generator_spec`: for the 8×8 box with spacing 2
and zero row offset, the grid half-count is `⌊(8/2)/2⌋` and the reflection
of the grid point `(2, 2)` through the bounding-box center lies in the
grid. -/
theorem grid_generator_spec_witness :
    gridHalf (8 : ℚ) 2 = ⌊(8 : ℚ) / 2 / 2⌋ ∧
    (2 * (Box.center ⟨((0 : ℚ), 0), (8, 8)⟩).1 - 2,
     2 * (Box.center ⟨((0 : ℚ), 0), (8, 8)⟩).2 - 2) ∈
      rawGrid (Box.center ⟨((0 : ℚ), 0), (8, 8)⟩) 8 8 2 0 :=
  ⟨(grid_generator_spec ⟨((0 : ℚ), 0), (8, 8)⟩ 2 0 (by norm_num)).1
      (by norm_num),
    (grid_generator_spec ⟨((0 : ℚ), 0), (8, 8)⟩ 2 0 (by norm_num)).2.2.2.2.2 rfl
      ((2 : ℚ), (2 : ℚ)) (by with_unfolding_all decide)⟩

/-- C5 counterexample to the claim as stated: with the staggered row offset
enabled (jitter disabled), the raw grid is not symmetric about the
bounding-box center.  For the 8×8 box (center `(4, 4)`), spacing 2 and row
offset 1, the grid contains `(9, 6)` but not its reflection `(-1, 2)`. -/
theorem grid_symmetry_counterexample :
    Box.center ⟨((0 : ℚ), 0), (8, 8)⟩ = ((4 : ℚ), 4) ∧
    ((9 : ℚ), (6 : ℚ)) ∈ rawGrid ((4 : ℚ), 4) 8 8 2 1 ∧
    (2 * (4 : ℚ) - 9, 2 * (4 : ℚ) - 6) ∉ rawGrid ((4 : ℚ), 4) 8 8 2 1 :=
  ⟨by with_unfolding_all decide, by with_unfolding_all decide,
    by with_unfolding_all decide⟩

/-- C6 (corrected claim).  A candidate of the differential-pair filter is
kept iff, for every pairwise midpoint of the two generated sequences, it is
at least as far from that midpoint as both items' reference positions are;
the midpoints are formed only when the two sequences have equal length, and
when the lengths differ the midpoint list is empty, so the filter is
skipped for all candidates (not only for the unmatched tail). -/
theorem diffPairFilter_spec (i1 i2 : Pt) (ps1 ps2 : List Pt) :
    (ps1.length ≠ ps2.length → diffPairFilter i1 i2 ps1 ps2 = ps1 ++ ps2) ∧
    (∀ p : Pt, p ∈ diffPairFilter i1 i2 ps1 ps2 ↔
      p ∈ ps1 ++ ps2 ∧ ∀ m ∈ midpoints ps1 ps2,
        sqDist i1 m ≤ sqDist p m ∧ sqDist i2 m ≤ sqDist p m) := by
  constructor
  · intro h
    unfold diffPairFilter is_outer midpoints
    rw [if_neg h]
    simp
  · intro p
    unfold diffPairFilter is_outer
    rw [List.mem_filter]
    simp only [List.all_eq_true, Bool.or_eq_true, Bool.not_eq_true', Bool.or_eq_false_iff,
      decide_eq_false_iff_not, not_lt]

/-- Closed instance of `diffPairFilter_spec`: with sequences of different
lengths the filter is skipped entirely. -/
theorem diffPairFilter_spec_witness :
    diffPairFilter ((0 : ℚ), (0 : ℚ)) ((0 : ℚ), (0 : ℚ)) [((1 : ℚ), (1 : ℚ))] [] =
      [((1 : ℚ), (1 : ℚ))] :=
  (diffPairFilter_spec ((0 : ℚ), (0 : ℚ)) ((0 : ℚ), (0 : ℚ)) [((1 : ℚ), (1 : ℚ))] []).1
    (by simp)

/-- C6 counterexample to the claim as stated: with sequences of lengths 1
and 2 the filter is skipped for the matched prefix too.  The candidate
`(0, 1)` is the first point of the first sequence; the midpoint of the first
matched pair is `(0, 0)`; the candidate is strictly closer to that midpoint
than the first item's reference position `(0, 2)` is, so under the claim it
must be discarded — yet the code keeps every candidate. -/
theorem diffPair_skip_counterexample :
    diffPairFilter ((0 : ℚ), 2) ((0 : ℚ), -2) [((0 : ℚ), 1)] [((0 : ℚ), -1), ((9 : ℚ), 9)] =
      [((0 : ℚ), 1), ((0 : ℚ), -1), ((9 : ℚ), 9)] ∧
    (((0 : ℚ) + 0) / 2, ((1 : ℚ) + -1) / 2) = ((0 : ℚ), 0) ∧
    sqDist ((0 : ℚ), 1) ((0 : ℚ), 0) < sqDist ((0 : ℚ), 2) ((0 : ℚ), 0) :=
  ⟨by with_unfolding_all decide, by with_unfolding_all decide,
    by with_unfolding_all decide⟩

/-- C7.  Both engines surface a distinguished raised error before any
candidate is generated (the result is a constant `Except.error`, independent
of the obstacle list and the random stream): non-positive spacing (stitching
and fencing), an empty outline, an outline with no determinable bounding
box, and differential-pair mode with a number of selected reference curves
different from two. -/
theorem validation_errors_spec :
    (∀ (cfg : StitchConfig) shapes obstacles ang rng, cfg.spacing ≤ 0 →
      perform_stitching cfg shapes obstacles ang rng =
        Except.error "Spacing must be a positive value.") ∧
    (∀ (cfg : StitchConfig) obstacles ang rng, 0 < cfg.spacing →
      perform_stitching cfg [] obstacles ang rng =
        Except.error "No valid board outline found.") ∧
    (∀ (cfg : StitchConfig) shapes obstacles ang rng, 0 < cfg.spacing →
      shapes ≠ [] → get_enclosing_bbox shapes = none →
      perform_stitching cfg shapes obstacles ang rng =
        Except.error "Could not determine board bounding box.") ∧
    (∀ (fcfg : FenceConfig) items obstacles ang, fcfg.spacing ≤ 0 →
      perform_fencing fcfg items obstacles ang =
        Except.error "Spacing must be a positive value.") ∧
    (∀ (fcfg : FenceConfig) items obstacles ang, 0 < fcfg.spacing →
      fcfg.isDiffPair = true → items.length ≠ 2 →
      perform_fencing fcfg items obstacles ang =
        Except.error "Differential pair fencing requires exactly two tracks to be selected.") := by
  refine ⟨?_, ?_, ?_, ?_, ?_⟩
  · intro cfg shapes obstacles ang rng h
    unfold perform_stitching
    rw [if_pos h]
  · intro cfg obstacles ang rng h
    unfold perform_stitching
    rw [if_neg (not_le.mpr h), if_pos rfl]
  · intro cfg shapes obstacles ang rng h hne hb
    unfold perform_stitching
    rw [if_neg (not_le.mpr h), if_neg hne, hb]
  · intro fcfg items obstacles ang h
    unfold perform_fencing
    rw [if_pos h]
  · intro fcfg items obstacles ang h hd hlen
    unfold perform_fencing
    rw [if_neg (not_le.mpr h)]
    dsimp only
    rw [if_pos hd]
    rcases items with _ | ⟨a, _ | ⟨b, _ | ⟨c, rest⟩⟩⟩
    · rfl
    · rfl
    · exact absurd rfl hlen
    · rfl

/-- Closed instances of `validation_errors_spec`: each validation error at a
concrete input. -/
theorem validation_errors_spec_witness :
    perform_stitching ⟨1, 1, 0, 0, 0, 0, false, none⟩ [] [] (fun _ _ => 0) (fun _ => 0) =
      Except.error "Spacing must be a positive value." ∧
    perform_stitching ⟨1, 1, 1, 0, 0, 0, false, none⟩ [] [] (fun _ _ => 0) (fun _ => 0) =
      Except.error "No valid board outline found." ∧
    perform_stitching ⟨1, 1, 1, 0, 0, 0, false, none⟩ [none] [] (fun _ _ => 0) (fun _ => 0) =
      Except.error "Could not determine board bounding box." ∧
    perform_fencing ⟨1, 1, 0, 0, 0, 1, 1, true, none⟩ [] [] (fun _ _ => 0) =
      Except.error "Spacing must be a positive value." ∧
    perform_fencing ⟨1, 1, 1, 0, 0, 1, 1, true, none⟩ [] [] (fun _ _ => 0) =
      Except.error "Differential pair fencing requires exactly two tracks to be selected." :=
  ⟨validation_errors_spec.1 _ [] [] _ _ (by norm_num),
    validation_errors_spec.2.1 _ [] _ _ (by norm_num),
    validation_errors_spec.2.2.1 _ [none] [] _ _ (by norm_num) (by simp) rfl,
    validation_errors_spec.2.2.2.1 _ [] [] _ (by norm_num),
    validation_errors_spec.2.2.2.2 _ [] [] _ (by norm_num) rfl (by simp)⟩

/-- C8 (corrected claim).  Once validation passes, a run that accepts zero
points returns `Except.ok` with the resolver's (possibly empty) accepted
list — rejection by spacing or obstacle constraints never raises.  For
stitching this additionally requires the containment/edge-clearance stage to
keep at least one raw candidate: when that stage keeps none, the code
raises instead (see the counterexample). -/
theorem empty_accept_ok_spec :
    (∀ (cfg : StitchConfig) shapes obstacles ang rng bbox, 0 < cfg.spacing →
      shapes ≠ [] → get_enclosing_bbox shapes = some bbox →
      stitchCandidates cfg bbox rng ≠ [] →
      perform_stitching cfg shapes obstacles ang rng =
        Except.ok (resolveCandidates cfg.spacing
          (fun pos => (clearance_scan ang pos (cfg.viaSize / 2) cfg.clearance cfg.targetNet
            obstacles).isSome)
          (stitchCandidates cfg bbox rng))) ∧
    (∀ (fcfg : FenceConfig) items obstacles ang, 0 < fcfg.spacing →
      fcfg.isDiffPair = false →
      perform_fencing fcfg items obstacles ang =
        Except.ok (resolveCandidates fcfg.spacing
          (fun pos => (clearance_scan ang pos (fcfg.viaSize / 2) fcfg.clearance fcfg.targetNet
            obstacles).isSome)
          (items.flatMap FenceItem.genPoints))) := by
  constructor
  · intro cfg shapes obstacles ang rng bbox h hne hb hcand
    unfold perform_stitching
    rw [if_neg (not_le.mpr h), if_neg hne, hb]
    dsimp only
    rw [if_neg hcand]
  · intro fcfg items obstacles ang h hd
    unfold perform_fencing
    rw [if_neg (not_le.mpr h)]
    dsimp only
    rw [if_neg (by rw [hd]; exact Bool.false_ne_true)]

/-- Closed instance of `empty_accept_ok_spec`: a run whose only raw
candidate is rejected by an obstacle returns `Except.ok []` — the empty
accepted list as a normal outcome. -/
theorem empty_accept_ok_spec_witness :
    perform_stitching ⟨1, 1, 2, 0, 0, 0, false, none⟩ [some ⟨((0 : ℚ), 0), (4, 4)⟩]
        [Obstacle.via ((2 : ℚ), 2) 10 none] (fun _ _ => 0) (fun _ => 0) =
      Except.ok [] := by
  rw [empty_accept_ok_spec.1 ⟨1, 1, 2, 0, 0, 0, false, none⟩
    [some ⟨((0 : ℚ), 0), (4, 4)⟩] [Obstacle.via ((2 : ℚ), 2) 10 none]
    (fun _ _ => 0) (fun _ => 0) ⟨((0 : ℚ), 0), (4, 4)⟩ (by norm_num) (by simp)
    (by with_unfolding_all rfl) (by with_unfolding_all decide)]
  with_unfolding_all rfl

/-- C8 counterexample to the claim as stated: a valid input (non-empty
outline, positive spacing) on which no grid position satisfies the
containment and edge-clearance constraints makes `perform_stitching` raise
(`"No valid positions for vias found..."`) instead of returning an empty
accepted list. -/
theorem stitch_no_candidates_error :
    perform_stitching ⟨12, 6, 6, 0, 0, 0, false, none⟩ [some ⟨((0 : ℚ), 0), (10, 10)⟩] []
        (fun _ _ => 0) (fun _ => 0) =
      Except.error "No valid positions for vias found within the specified area and clearance." ∧
    (0 : ℚ) < 6 ∧
    ([some (⟨((0 : ℚ), 0), (10, 10)⟩ : Box)] : List (Option Box)) ≠ [] :=
  ⟨by with_unfolding_all rfl, by norm_num, by simp⟩

/-- C9 (corrected claim).  With random variance disabled, a stitching run is
a pure function of the input snapshot and parameters: the ambient random
stream is never consumed, so any two invocations agree. -/
theorem stitch_deterministic_no_variance (cfg : StitchConfig)
    (shapes : List (Option Box)) (obstacles : List Obstacle) (ang : Pt → Pt → ℚ)
    (rng1 rng2 : ℕ → ℚ) (h : cfg.randomVariance = false) :
    perform_stitching cfg shapes obstacles ang rng1 =
      perform_stitching cfg shapes obstacles ang rng2 := by
  unfold perform_stitching stitchCandidates stitchRawPositions
  simp only [h, Bool.false_eq_true, if_false]

/-- Closed instance of `stitch_deterministic_no_variance`: two runs with
different random streams agree when variance is disabled. -/
theorem stitch_deterministic_no_variance_witness :
    perform_stitching ⟨1, 1, 2, 0, 0, 0, false, none⟩ [some ⟨((0 : ℚ), 0), (4, 4)⟩] []
        (fun _ _ => 0) (fun _ => 0) =
      perform_stitching ⟨1, 1, 2, 0, 0, 0, false, none⟩ [some ⟨((0 : ℚ), 0), (4, 4)⟩] []
        (fun _ _ => 0) (fun _ => 1) :=
  stitch_deterministic_no_variance _ _ _ _ _ _ rfl

/-- C9 counterexample to the claim as stated: with random variance enabled
the accepted set depends on the ambient random stream, so two invocations of
the same snapshot and parameters can differ (the source draws from the
global `random` module). -/
theorem jitter_dependence_counterexample :
    perform_stitching ⟨1, 1, 2, 0, 0, 0, true, none⟩ [some ⟨((0 : ℚ), 0), (4, 4)⟩] []
        (fun _ _ => 0) (fun _ => 0) ≠
      perform_stitching ⟨1, 1, 2, 0, 0, 0, true, none⟩ [some ⟨((0 : ℚ), 0), (4, 4)⟩] []
        (fun _ _ => 0) (fun _ => 1) := by
  have h1 : perform_stitching ⟨1, 1, 2, 0, 0, 0, true, none⟩
      [some ⟨((0 : ℚ), 0), (4, 4)⟩] [] (fun _ _ => 0) (fun _ => 0) =
      Except.ok [((2 : ℚ), 2)] := by with_unfolding_all rfl
  have h2 : perform_stitching ⟨1, 1, 2, 0, 0, 0, true, none⟩
      [some ⟨((0 : ℚ), 0), (4, 4)⟩] [] (fun _ _ => 0) (fun _ => 1) =
      Except.ok [((1 : ℚ), 1), ((3 : ℚ), 1), ((1 : ℚ), 3), ((3 : ℚ), 3)] := by
    with_unfolding_all rfl
  intro hcontra
  rw [h1, h2] at hcontra
  exact absurd (Except.ok.inj hcontra) (by with_unfolding_all decide)

end ViaStitching
